import Mathlib

/-!
Verification of the acpied interactive document workspace engine
(`src/term.rs`) against its natural-language specification.

The Rust source is shallowly embedded below. Pure functions become Lean
functions; the editor state (`AcpiEditor`) becomes a structure that is
passed and returned explicitly. File contents are `List Char`; the two
backing directories (origin = baselines, modified = working copies) are
association lists from document name to content. The chunked file
comparison performed by the `file_diff` crate is modelled with an explicit
chunk-size parameter, because the comparison consumes the `File` handles:
`AcpiEditor::write` opens each file once and calls `diff_files` up to
twice on the same handles, so the second call starts from wherever the
first call stopped reading. That handle state is made explicit by having
`diff_files` return the unread remainders of both inputs.
-/

namespace Acpied

/-- `ListState` of the tui crate, reduced to the one field the source
reads and writes: the optional selected index (`selected()` / `select`). -/
structure ListState where
  selected : Option Nat
deriving DecidableEq, Repr

/-- `StatefulList<T>` from src/term.rs: an item vector plus a selection. -/
structure StatefulList (α : Type) where
  state : ListState
  items : List α
deriving DecidableEq, Repr

/-- `StatefulList::next` (src/term.rs lines 40-52). Returns `none` when the
Rust code would panic: with a selection present and an empty item vector,
`self.items.len() - 1` underflows. With no selection it selects index 0,
even on an empty list. -/
def StatefulList.next {α : Type} (l : StatefulList α) : Option (StatefulList α) :=
  match l.state.selected with
  | some i =>
      if l.items.length = 0 then none
      else
        let j := if i ≥ l.items.length - 1 then 0 else i + 1
        some { l with state := { selected := some j } }
  | none => some { l with state := { selected := some 0 } }

/-- `StatefulList::previous` (src/term.rs lines 54-66). Returns `none` when
the Rust code would panic: selection at index 0 with an empty item vector
makes `self.items.len() - 1` underflow. With no selection it selects 0. -/
def StatefulList.previous {α : Type} (l : StatefulList α) : Option (StatefulList α) :=
  match l.state.selected with
  | some i =>
      if i = 0 then
        if l.items.length = 0 then none
        else some { l with state := { selected := some (l.items.length - 1) } }
      else some { l with state := { selected := some (i - 1) } }
  | none => some { l with state := { selected := some 0 } }

/-- `n` successive calls of `next`, propagating a panic. -/
def nextN {α : Type} : Nat → StatefulList α → Option (StatefulList α)
  | 0, l => some l
  | Nat.succ m, l => (StatefulList.next l).bind (nextN m)

/-- The `Mode` enum of src/term.rs. -/
inductive Mode where
  | Normal
  | Insert
  | Search
deriving DecidableEq, Repr

/-- The chunked file comparison of the `file_diff` crate
(`file_diff::diff_files`), called by `AcpiEditor::write`. It repeatedly
reads one buffer of `c` bytes (the crate uses `c = 1024`) from each file
and compares them: unequal read lengths or unequal chunk contents yield
`false`, a zero-length read yields `true`. Reading consumes the handles,
so the result carries the unread remainders of both inputs; a second call
on the same handles continues from there. -/
def diff_files (c : Nat) (a b : List Char) : Bool × List Char × List Char :=
  if _h1 : (a.take c).length ≠ (b.take c).length then (false, a.drop c, b.drop c)
  else if _h2 : (a.take c).length = 0 then (true, a.drop c, b.drop c)
  else if _h3 : a.take c ≠ b.take c then (false, a.drop c, b.drop c)
  else diff_files c (a.drop c) (b.drop c)
termination_by a.length
decreasing_by
  have ht := List.length_take c a
  have hd := List.length_drop c a
  omega

/-- Serialization performed by `AcpiEditor::write` before persisting:
`self.content.clone().into_lines().join("\n")` followed by
`text.push('\n')`. -/
def serialize (lines : List (List Char)) : List Char :=
  (List.intercalate ['\n'] lines) ++ ['\n']

/-- Lookup of a file's content in a directory, modelling `fs::read`-style
access to one of the two backing directories. Missing files read as empty
(the workspace only ever touches names present in both directories). -/
def lookupD (dir : List (String × List Char)) (name : String) : List Char :=
  match dir.find? (fun p => p.1 == name) with
  | some p => p.2
  | none => []

/-- `fs::write`: replace the named file's content, creating it if absent. -/
def storeWrite (dir : List (String × List Char)) (name : String) (v : List Char) :
    List (String × List Char) :=
  if dir.any (fun p => p.1 == name) then
    dir.map (fun p => if p.1 == name then (p.1, v) else p)
  else dir ++ [(name, v)]

/-- The editor state of src/term.rs (`AcpiEditor`), together with the two
backing directories it reads and writes. The `content` TextArea is a list
of lines plus a cursor `(row, col)`; presentation-only fields (styles,
blocks, scroll state) are omitted. `origin` is the immutable baseline
directory, `disk` the mutable working directory. -/
structure AcpiEditor where
  files : StatefulList String
  modified : StatefulList String
  lines : List (List Char)
  row : Nat
  col : Nat
  last_char : Char
  mode : Mode
  origin : List (String × List Char)
  disk : List (String × List Char)
deriving DecidableEq, Repr

/-- The line under the cursor. -/
def AcpiEditor.currentLine (ed : AcpiEditor) : List Char :=
  ed.lines.getD ed.row []

/-- `AcpiEditor::write` (src/term.rs lines 276-306), the Dirty Tracker
step: serialize the buffer, persist it to the working directory, then
compare the just-written file against the baseline file with
`file_diff::diff_files`. Both `File` handles are opened once; the source
evaluates `diff_files` a second time in the `else if`, on the same
handles, so that second comparison starts from the remainders left by the
first. Insertion keeps the modified list sorted (`push` then `sort`);
removal via `binary_search` deletes the single occurrence, which on the
sorted duplicate-free list equals `List.erase`. -/
def AcpiEditor.write (ed : AcpiEditor) (c : Nat) : AcpiEditor :=
  let dsl_file := ed.files.items.getD (ed.files.state.selected.getD 0) ""
  let text := serialize ed.lines
  let disk1 := storeWrite ed.disk dsl_file text
  let originText := lookupD ed.origin dsl_file
  let exist := ed.modified.items.contains dsl_file
  let r1 := diff_files c text originText
  let items1 :=
    if !r1.1 && !exist then
      List.insertionSort (fun a b => a ≤ b) (ed.modified.items ++ [dsl_file])
    else
      let r2 := diff_files c r1.2.1 r1.2.2
      if r2.1 && exist then ed.modified.items.erase dsl_file
      else ed.modified.items
  { ed with disk := disk1, modified := { ed.modified with items := items1 } }

/-- `CursorMove::Down` (`next_line`): one line down, column clamped. -/
def AcpiEditor.next_line (ed : AcpiEditor) : AcpiEditor :=
  let r := min (ed.row + 1) (ed.lines.length - 1)
  { ed with row := r, col := min ed.col (ed.lines.getD r []).length }

/-- `AcpiEditor::try_to_start` (src/term.rs lines 247-253): if the chord
memory already holds `g`, jump the cursor to the buffer start; otherwise
only record `g` in the chord memory. Note the move branch does not reset
`last_char`. `CursorMove::Top` is modelled from the spec: "jump cursor to
buffer start (top)". -/
def AcpiEditor.try_to_start (ed : AcpiEditor) : AcpiEditor :=
  if ed.last_char = 'g' then { ed with row := 0, col := 0 }
  else { ed with last_char := 'g' }

/-- `TextArea::delete_line_by_end`, modelled from the spec ("content to
line end"): remove the text from the cursor to the end of the current
line. -/
def AcpiEditor.delete_line_by_end (ed : AcpiEditor) : AcpiEditor :=
  { ed with lines := ed.lines.set ed.row (ed.currentLine.take ed.col) }

/-- `TextArea::delete_line_by_head`, modelled from the spec ("content to
line head"): remove the text from the head of the current line to the
cursor. -/
def AcpiEditor.delete_line_by_head (ed : AcpiEditor) : AcpiEditor :=
  { ed with lines := ed.lines.set ed.row (ed.currentLine.drop ed.col), col := 0 }

/-- `AcpiEditor::try_delete_line` (src/term.rs lines 338-347): with chord
memory `d`, clear the current line (end part, then head part), persist,
and reset the chord memory to neutral; otherwise record `d`. -/
def AcpiEditor.try_delete_line (ed : AcpiEditor) (c : Nat) : AcpiEditor :=
  if ed.last_char = 'd' then
    { (ed.delete_line_by_end.delete_line_by_head.write c) with last_char := ' ' }
  else { ed with last_char := 'd' }

/-- `CursorMove::WordForward` (`next_word`), modelled from the spec: a
plain word-forward cursor move with no mutation. -/
def AcpiEditor.next_word (ed : AcpiEditor) : AcpiEditor :=
  let L := ed.currentLine
  { ed with
    col := min L.length (ed.col + 1 + ((L.drop (ed.col + 1)).takeWhile (fun ch => ch ≠ ' ')).length) }

/-- `TextArea::delete_next_word`, modelled from the spec: delete from the
cursor to the next word boundary within the current line. -/
def AcpiEditor.delete_next_word (ed : AcpiEditor) : AcpiEditor :=
  let L := ed.currentLine
  { ed with
    lines := ed.lines.set ed.row (L.take ed.col ++ (L.drop ed.col).dropWhile (fun ch => ch ≠ ' ')) }

/-- `AcpiEditor::try_delete_word` (src/term.rs lines 349-357): with chord
memory `d`, delete to the next word boundary and persist, otherwise move
one word forward; either way the chord memory is then set to `w`. -/
def AcpiEditor.try_delete_word (ed : AcpiEditor) (c : Nat) : AcpiEditor :=
  if ed.last_char = 'd' then { (ed.delete_next_word.write c) with last_char := 'w' }
  else { ed.next_word with last_char := 'w' }

/-- `TextArea::delete_next_char`, modelled from the spec
("delete-character-under-cursor"): remove the character under the cursor;
at the end of a line, join the next line up. -/
def AcpiEditor.delete_next_char (ed : AcpiEditor) : AcpiEditor :=
  let L := ed.currentLine
  if ed.col < L.length then
    { ed with lines := ed.lines.set ed.row (L.eraseIdx ed.col) }
  else if ed.row + 1 < ed.lines.length then
    { ed with
      lines := (ed.lines.set ed.row (L ++ ed.lines.getD (ed.row + 1) [])).eraseIdx (ed.row + 1) }
  else ed

/-- `AcpiEditor::delete_char` (src/term.rs lines 359-362): delete the
character under the cursor, then persist (Dirty Tracker runs). -/
def AcpiEditor.delete_char (ed : AcpiEditor) (c : Nat) : AcpiEditor :=
  ed.delete_next_char.write c

/-- The Normal-mode keys modelled here, a faithful subset of the
dispatch in `start` (src/term.rs lines 536-645): `j` (cursor down), `g`
(chord starter / top jump), `d` (chord starter / delete line), `w`
(delete word or word forward), `x` (delete char). `other` stands for the
wildcard arm `_ => {}` of the source match, which does nothing. -/
inductive NKey where
  | j
  | g
  | d
  | w
  | x
  | other
deriving DecidableEq, Repr

/-- One Normal-mode key dispatch, following the `Mode::Normal` match arms
of `start`. -/
def normalStep (c : Nat) (ed : AcpiEditor) (k : NKey) : AcpiEditor :=
  match k with
  | NKey.j => ed.next_line
  | NKey.g => ed.try_to_start
  | NKey.d => ed.try_delete_line c
  | NKey.w => ed.try_delete_word c
  | NKey.x => ed.delete_char c
  | NKey.other => ed

/-- Insert-mode keys: escape (mode switch), a printable character, enter
(newline) and backspace, each forwarded to the TextArea by
`AcpiEditor::insert`. -/
inductive IKey where
  | esc
  | char (ch : Char)
  | enter
  | backspace
deriving DecidableEq, Repr

/-- `TextArea::input` for the Insert-mode keys: character insertion at the
cursor, newline split, backspace; `esc` performs no edit. Modelled from
the spec ("key forwarded to buffer as a content edit"). -/
def AcpiEditor.inputEdit (ed : AcpiEditor) (k : IKey) : AcpiEditor :=
  match k with
  | IKey.char ch =>
      let L := ed.currentLine
      { ed with
        lines := ed.lines.set ed.row (L.take ed.col ++ [ch] ++ L.drop ed.col),
        col := ed.col + 1 }
  | IKey.enter =>
      let L := ed.currentLine
      { ed with
        lines := ed.lines.take ed.row ++ [L.take ed.col, L.drop ed.col] ++
          ed.lines.drop (ed.row + 1),
        row := ed.row + 1, col := 0 }
  | IKey.backspace =>
      let L := ed.currentLine
      if 0 < ed.col then
        { ed with lines := ed.lines.set ed.row (L.eraseIdx (ed.col - 1)), col := ed.col - 1 }
      else if 0 < ed.row then
        { ed with
          lines := (ed.lines.set (ed.row - 1) (ed.lines.getD (ed.row - 1) [] ++ L)).eraseIdx ed.row,
          row := ed.row - 1, col := (ed.lines.getD (ed.row - 1) []).length }
      else ed
  | IKey.esc => ed

/-- `AcpiEditor::insert` (src/term.rs lines 308-314): with no document
selected, return immediately; otherwise forward the key to the buffer and
persist. -/
def AcpiEditor.insert (ed : AcpiEditor) (c : Nat) (k : IKey) : AcpiEditor :=
  if ed.files.state.selected.isNone then ed
  else (ed.inputEdit k).write c

/-- `switch_mode(Mode::Normal)`: only the mode (and cursor style, not
modelled) changes. -/
def AcpiEditor.switch_to_normal (ed : AcpiEditor) : AcpiEditor :=
  { ed with mode := Mode.Normal }

/-- The `Mode::Insert` arm of the event loop in `start` (src/term.rs lines
646-654): on escape the mode is switched back to Normal, and the key is
then forwarded to `AcpiEditor::insert` in every case. -/
def insertModeStep (c : Nat) (ed : AcpiEditor) (k : IKey) : AcpiEditor :=
  let ed1 := if k = IKey.esc then ed.switch_to_normal else ed
  ed1.insert c k

/-- The timestamp fields read by `AcpiEditor::update_log` from
`Utc::now()`. -/
structure DateTime where
  year : Nat
  month : Nat
  day : Nat
  hour : Nat
  minute : Nat
  second : Nat
deriving DecidableEq, Repr

/-- Rust's `{:02}` format: decimal, zero-padded to at least two digits. -/
def pad2 (n : Nat) : String :=
  if n < 10 then "0" ++ toString n else toString n

/-- The line formatting of `AcpiEditor::update_log` (src/term.rs lines
160-171): `format!("|{}-{:02}-{:02} {:02}:{:02}:{:02}| {}", ...)`. -/
def fmtEntry (t : DateTime) (msg : String) : String :=
  "|" ++ toString t.year ++ "-" ++ pad2 t.month ++ "-" ++ pad2 t.day ++ " " ++
    pad2 t.hour ++ ":" ++ pad2 t.minute ++ ":" ++ pad2 t.second ++ "| " ++ msg

/-- The operation-log state: the lines of the in-memory log `TextArea` and
the lines appended to the durable sink file during the session. The
source's `set_max_histories(MAX_HISTORY_SIZE)` call on the log `TextArea`
(src/term.rs line 125) configures the widget's undo-history capacity and
does not bound or evict the displayed lines, so no capacity appears
here. -/
structure LogState where
  memLines : List String
  sink : List String
deriving DecidableEq, Repr

/-- The log `TextArea` starts as `TextArea::default()`: one empty line.
The durable sink is tracked relative to session start. -/
def logInit : LogState :=
  { memLines := [""], sink := [] }

/-- `AcpiEditor::update_log` (src/term.rs lines 160-185): format the
message with a timestamp, `insert_newline` + `insert_str` on the in-memory
`TextArea` (cursor at the end, so this appends one line), and append the
same line to the durable sink when the file opens (`if let Ok(...)`;
`openOk = false` models a failed open, which is silently skipped). -/
def update_log (t : DateTime) (openOk : Bool) (st : LogState) (msg : String) : LogState :=
  let line := fmtEntry t msg
  { memLines := st.memLines ++ [line],
    sink := if openOk then st.sink ++ [line] else st.sink }

/-- A sequence of `update_log` calls from the initial log state. -/
def runLog (t : DateTime) (msgs : List String) : LogState :=
  msgs.foldl (update_log t true) logInit

/-- Outcome of invoking the external apply tool
(`Command::new("acpied-apply").arg(..).output()`): exit status 0 with
captured stdout, non-zero exit with captured stderr, or an invocation
error. -/
inductive ApplyOutcome where
  | success (stdout : String)
  | failure (stderr : String)
  | invocationError (msg : String)
deriving DecidableEq, Repr

/-- The state read and written by `AcpiEditor::apply`: the modified-set
items and the log. -/
structure ApplyState where
  modifiedItems : List String
  log : LogState
deriving DecidableEq, Repr

/-- `AcpiEditor::apply` (src/term.rs lines 386-412): no-op when the
modified set is empty; otherwise join the names with `","` into the single
tool argument, then log stdout's non-empty lines on success
(`line.len() != 0`), every stderr line on failure, or the error text on an
invocation error. The second component is the argument the tool was
invoked with (`none` = not invoked). The modified set itself is never
written. -/
def apply (t : DateTime) (openOk : Bool) (outcome : ApplyOutcome) (st : ApplyState) :
    ApplyState × Option String :=
  if st.modifiedItems.length = 0 then (st, none)
  else
    let dsl_files := String.intercalate "," st.modifiedItems
    let msgs :=
      match outcome with
      | ApplyOutcome.success so => (so.splitOn "\n").filter (fun l : String => l.length != 0)
      | ApplyOutcome.failure se => se.splitOn "\n"
      | ApplyOutcome.invocationError e => [e]
    ({ st with log := msgs.foldl (update_log t openOk) st.log }, some dsl_files)

/-- Rust's `str::trim_start_matches('/')`: drop every leading `/`. -/
def trimStartSlashes (s : String) : String :=
  (s.toList.dropWhile (fun ch => ch = '/')).asString

/-- `AcpiEditor::search` (src/term.rs lines 320-328): switch to Normal
mode, join the pattern-buffer lines, strip the leading `/` marker and
compile the pattern with `set_search_pattern(..).unwrap()`. The compiler
of the external regex engine is a parameter; `unwrap` on its error
panics, modelled as `none` (the program aborts). On success the result
carries the new mode and the installed pattern. -/
def search (compileOk : String → Bool) (patternLines : List String) : Option (Mode × String) :=
  let pat := trimStartSlashes (String.join patternLines)
  if compileOk pat then some (Mode.Normal, pat) else none

/-- A one-document workspace used as concrete input: document "A" with
baseline file content `"ab\n"`, freshly loaded (buffer = one line `ab`,
working copy = baseline, modified set empty), document selected. -/
def edAB : AcpiEditor :=
  { files := { state := { selected := some 0 }, items := ["A"] }
    modified := { state := { selected := none }, items := [] }
    lines := [['a', 'b']]
    row := 0
    col := 0
    last_char := ' '
    mode := Mode.Normal
    origin := [("A", ['a', 'b', '\n'])]
    disk := [("A", ['a', 'b', '\n'])] }

/-- A two-line workspace used as concrete input for the `g` chord:
buffer lines `a` and `b`, cursor on the second line. -/
def edTwoLines : AcpiEditor :=
  { edAB with lines := [['a'], ['b']], row := 1, col := 0 }

/-- `edAB` with no document selected (the state at startup before any
Up/Down key), used for the Insert-mode frame property. -/
def edUnselected : AcpiEditor :=
  { edAB with files := { state := { selected := none }, items := ["A"] } }

/-- The state of `edAB` after the Normal-mode `x` key: the buffer lost its
first character, the working copy was persisted, and `A` was inserted into
the modified set (the buffer now differs from the baseline). -/
def edAB1 : AcpiEditor :=
  { edAB with
    lines := [['b']],
    modified := { state := { selected := none }, items := ["A"] },
    disk := [("A", ['b', '\n'])] }

/-- An apply-state with ModifiedSet `{A, C}` and a fresh log. -/
def stAC : ApplyState :=
  { modifiedItems := ["A", "C"], log := logInit }

/-- A fixed timestamp for concrete log evaluations. -/
def dt0 : DateTime :=
  { year := 2026, month := 10, day := 12, hour := 0, minute := 0, second := 0 }

/-! ## Helper lemmas -/

/-- Comparing any file content with itself chunkwise reports equality,
whatever the chunk size and starting position. -/
theorem diff_files_self (c : Nat) (l : List Char) : (diff_files c l l).1 = true := by
  generalize hn : l.length = n
  induction n using Nat.strong_induction_on generalizing l with
  | _ n ih =>
    rw [diff_files, dif_neg (by simp)]
    by_cases h2 : (l.take c).length = 0
    · rw [dif_pos h2]
    · rw [dif_neg h2, dif_neg (by simp)]
      have hc : 0 < c := by
        rcases Nat.eq_zero_or_pos c with h | h
        · subst h; simp at h2
        · exact h
      have hl : 0 < l.length := by
        have := List.length_take c l
        omega
      have hlt : (l.drop c).length < n := by
        have := List.length_drop c l
        omega
      exact ih _ hlt _ rfl

/-- Two file contents that differ in their first byte compare as unequal
for every positive chunk size. -/
theorem diff_files_head_ne (c : Nat) (hc : 1 ≤ c) (x y : Char) (hxy : x ≠ y)
    (s t : List Char) : (diff_files c (x :: s) (y :: t)).1 = false := by
  obtain ⟨m, rfl⟩ : ∃ m, c = m + 1 := ⟨c - 1, by omega⟩
  rw [diff_files]
  by_cases h1 : ((x :: s).take (m + 1)).length ≠ ((y :: t).take (m + 1)).length
  · rw [dif_pos h1]
  · rw [dif_neg h1, dif_neg (by simp), dif_pos (by simp [List.take_succ_cons, hxy])]

/-- Two file contents of equal length that differ exactly in their first
byte: the comparison stops inside the first chunk and leaves identical
unread remainders on both handles. -/
theorem diff_files_cons_same_tail (c : Nat) (hc : 1 ≤ c) (x y : Char) (hxy : x ≠ y)
    (t : List Char) :
    diff_files c (x :: t) (y :: t) = (false, t.drop (c - 1), t.drop (c - 1)) := by
  obtain ⟨m, rfl⟩ : ∃ m, c = m + 1 := ⟨c - 1, by omega⟩
  rw [diff_files, dif_neg (by simp), dif_neg (by simp),
    dif_pos (by simp [List.take_succ_cons, hxy])]
  simp [List.drop_succ_cons]

/-- Persisting never changes the buffer lines. -/
theorem AcpiEditor.write_lines (ed : AcpiEditor) (c : Nat) : (ed.write c).lines = ed.lines := rfl

/-- Persisting never changes the chord memory. -/
theorem AcpiEditor.write_last_char (ed : AcpiEditor) (c : Nat) :
    (ed.write c).last_char = ed.last_char := rfl

/-- First step of the C1 run: the `x` key on `edAB` deletes `a`, persists
`"b\n"`, and correctly inserts `A` into the modified set (the first
`diff_files` call reports a mismatch and `A` was absent). -/
theorem c1_step1 (c : Nat) (hc : 1 ≤ c) : normalStep c edAB NKey.x = edAB1 := by
  have hA : edAB.delete_next_char = { edAB with lines := [['b']] } := by decide
  have hd1 : (diff_files c ['b', '\n'] ['a', 'b', '\n']).1 = false :=
    diff_files_head_ne c hc 'b' 'a' (by decide) _ _
  show (edAB.delete_next_char).write c = _
  rw [hA]
  unfold AcpiEditor.write
  simp only [edAB]
  simp only [show (["A"].getD ((some 0).getD 0) "") = "A" from rfl,
    show lookupD [("A", ['a', 'b', '\n'])] "A" = ['a', 'b', '\n'] from rfl,
    show serialize [['b']] = ['b', '\n'] from rfl]
  rw [hd1]
  simp [edAB1, edAB, storeWrite, List.insertionSort, List.orderedInsert]

/-- Second step of the C1 run: inserting `x` makes the buffer `"xb"`,
which still differs from the baseline `"ab\n"`, yet `A` is removed from
the modified set: the first `diff_files` call stops at the first byte and
the second call, made on the same consumed handles, compares only the
identical remainders and reports the files equal. -/
theorem c1_step2 (c : Nat) (hc : 1 ≤ c) :
    insertModeStep c edAB1 (IKey.char 'x') =
      { edAB with
        lines := [['x', 'b']],
        col := 1,
        modified := { state := { selected := none }, items := [] },
        disk := [("A", ['x', 'b', '\n'])] } := by
  have hd2 : diff_files c ['x', 'b', '\n'] ['a', 'b', '\n'] =
      (false, (['b', '\n'] : List Char).drop (c - 1), (['b', '\n'] : List Char).drop (c - 1)) :=
    diff_files_cons_same_tail c hc 'x' 'a' (by decide) _
  have hself : (diff_files c ((['b', '\n'] : List Char).drop (c - 1))
      ((['b', '\n'] : List Char).drop (c - 1))).1 = true := diff_files_self c _
  have hB : edAB1.inputEdit (IKey.char 'x') = { edAB1 with lines := [['x', 'b']], col := 1 } := by
    decide
  unfold insertModeStep
  rw [if_neg (show ¬(IKey.char 'x' = IKey.esc) from by decide)]
  unfold AcpiEditor.insert
  rw [if_neg (by decide)]
  rw [hB]
  unfold AcpiEditor.write
  simp only [edAB1, edAB]
  simp only [show (["A"].getD ((some 0).getD 0) "") = "A" from rfl,
    show lookupD [("A", ['a', 'b', '\n'])] "A" = ['a', 'b', '\n'] from rfl,
    show serialize [['x', 'b']] = ['x', 'b', '\n'] from rfl]
  rw [hd2]
  simp only [show (["A"] : List String).contains "A" = true from rfl]
  simp only [Bool.not_true, Bool.and_false, Bool.false_and, Bool.not_false]
  rw [if_neg (by simp)]
  simp only [hself]
  simp [storeWrite]

/-- Iterating `next` from a valid selection walks `(i + k) mod N`. -/
theorem nextN_from_some {α : Type} (items : List α) (i k : Nat) (hi : i < items.length) :
    nextN k ({ state := { selected := some i }, items := items } : StatefulList α) =
      some { state := { selected := some ((i + k) % items.length) }, items := items } := by
  induction k generalizing i with
  | zero => simp [nextN, Nat.mod_eq_of_lt hi]
  | succ m ih =>
    have hl : 0 < items.length := by omega
    rw [nextN]
    simp only [StatefulList.next]
    rw [if_neg (by omega)]
    by_cases hge : i ≥ items.length - 1
    · have hi0 : i = items.length - 1 := by omega
      simp only [if_pos hge, Option.some_bind]
      rw [ih 0 hl]
      congr 2
      subst hi0
      have he : items.length - 1 + (m + 1) = items.length + m := by omega
      rw [he, Nat.add_mod_left, Nat.zero_add]
    · simp only [if_neg hge, Option.some_bind]
      rw [ih (i + 1) (by omega)]
      have he : i + 1 + m = i + (m + 1) := by omega
      rw [he]

/-- A `d,d` chord clears exactly the current line's text: `delete_line_by_end`
then `delete_line_by_head` leaves the line present but empty. -/
theorem ddLines (ed : AcpiEditor) :
    (ed.delete_line_by_end.delete_line_by_head).lines = ed.lines.set ed.row [] := by
  simp only [AcpiEditor.delete_line_by_head, AcpiEditor.delete_line_by_end, AcpiEditor.currentLine]
  rw [List.set_set]
  by_cases hr : ed.row < ed.lines.length
  · rw [List.getD_eq_getElem?_getD, List.getElem?_set_self hr]
    simp only [Option.getD_some]
    rw [List.drop_eq_nil_of_le (by simp)]
  · rw [List.getD_eq_getElem?_getD]
    rw [List.getElem?_eq_none (by simpa using Nat.le_of_not_lt hr)]
    simp

/-- A run of `update_log` calls appends the formatted lines in order to
the in-memory text area and, when the sink file opens, to the sink. -/
theorem foldl_update_log (t : DateTime) (ok : Bool) (msgs : List String) (st : LogState) :
    msgs.foldl (update_log t ok) st =
      { memLines := st.memLines ++ msgs.map (fmtEntry t),
        sink := st.sink ++ (if ok then msgs.map (fmtEntry t) else []) } := by
  induction msgs generalizing st with
  | nil => cases ok <;> simp
  | cons m ms ih =>
    rw [List.foldl_cons, ih]
    cases ok <;> simp [update_log]

/-! ## Claim theorems -/

/-- Claim C1. The dirty invariant `name ∈ ModifiedSet ⇔ buffer ≠ baseline`
is broken by the code: on the one-document workspace `edAB` (baseline
`"ab\n"`), pressing `x` in Normal mode correctly puts `A` into the
modified set, but a following Insert-mode `x` keystroke — after which the
buffer `"xb\n"` still differs from the baseline — removes `A` from the
modified set again, for every chunk size `c ≥ 1` of the file comparison.
The cause is `AcpiEditor::write` calling `file_diff::diff_files` a second
time on the already-consumed file handles. -/
theorem dirty_tracking_diff_reuse_bug (c : Nat) (hc : 1 ≤ c) :
    (normalStep c edAB NKey.x).modified.items = ["A"] ∧
    (insertModeStep c (normalStep c edAB NKey.x) (IKey.char 'x')).modified.items = [] ∧
    serialize (insertModeStep c (normalStep c edAB NKey.x) (IKey.char 'x')).lines ≠
      lookupD (insertModeStep c (normalStep c edAB NKey.x) (IKey.char 'x')).origin "A" := by
  rw [c1_step1 c hc, c1_step2 c hc]
  exact ⟨rfl, rfl, by decide⟩

/-- Claim C1, witness at the chunk size 1024 used by the `file_diff`
crate. -/
theorem dirty_tracking_diff_reuse_bug_witness :
    1 ≤ 1024 ∧
    ((normalStep 1024 edAB NKey.x).modified.items = ["A"] ∧
     (insertModeStep 1024 (normalStep 1024 edAB NKey.x) (IKey.char 'x')).modified.items = [] ∧
     serialize (insertModeStep 1024 (normalStep 1024 edAB NKey.x) (IKey.char 'x')).lines ≠
       lookupD (insertModeStep 1024 (normalStep 1024 edAB NKey.x) (IKey.char 'x')).origin "A") :=
  ⟨by decide, dirty_tracking_diff_reuse_bug 1024 (by decide)⟩

/-- Claim C2, counterexample to the claim as stated: on a list of length
N = 2, calling `advance` twice starting from no selection leaves the
selection at index 1, not at index 0. -/
theorem wrap_navigation_counterexample :
    nextN 2 ({ state := { selected := none }, items := ["a", "b"] } : StatefulList String) =
      some { state := { selected := some 1 }, items := ["a", "b"] } ∧
    (some ({ state := { selected := some 1 }, items := ["a", "b"] } : StatefulList String) ≠
      some ({ state := { selected := some 0 }, items := ["a", "b"] } : StatefulList String)) := by
  decide

/-- Claim C2 as amended: for a list of length N ≥ 1, the first `advance`
from no selection selects index 0 and N further calls wrap back to index
0 (N + 1 calls in total); `retreat` from index 0 selects index N − 1. -/
theorem wrap_navigation (items : List String) (h : items ≠ []) :
    nextN (items.length + 1)
        ({ state := { selected := none }, items := items } : StatefulList String) =
      some { state := { selected := some 0 }, items := items } ∧
    StatefulList.previous
        ({ state := { selected := some 0 }, items := items } : StatefulList String) =
      some { state := { selected := some (items.length - 1) }, items := items } := by
  have hl : 0 < items.length := List.length_pos.mpr h
  constructor
  · rw [nextN]
    simp only [StatefulList.next, Option.some_bind]
    rw [nextN_from_some items 0 items.length hl]
    congr 2
    simp [Nat.mod_self]
  · simp only [StatefulList.previous]
    rw [if_pos trivial, if_neg (by omega)]

/-- Claim C2, witness of the amended statement on the list `["a", "b"]`. -/
theorem wrap_navigation_witness :
    (["a", "b"] : List String) ≠ [] ∧
    (nextN ((["a", "b"] : List String).length + 1)
        ({ state := { selected := none }, items := ["a", "b"] } : StatefulList String) =
      some { state := { selected := some 0 }, items := ["a", "b"] } ∧
    StatefulList.previous
        ({ state := { selected := some 0 }, items := ["a", "b"] } : StatefulList String) =
      some { state := { selected := some ((["a", "b"] : List String).length - 1) },
             items := ["a", "b"] }) :=
  ⟨by decide, wrap_navigation ["a", "b"] (by decide)⟩

/-- Claim C3, counterexample to the claim as stated: `advance` on an empty
list with no selection is not a no-op — the selection becomes index 0
instead of staying none. -/
theorem empty_list_counterexample :
    StatefulList.next ({ state := { selected := none }, items := [] } : StatefulList String) =
      some { state := { selected := some 0 }, items := [] } ∧
    (some ({ state := { selected := some 0 }, items := [] } : StatefulList String) ≠
      some ({ state := { selected := none }, items := [] } : StatefulList String)) := by
  decide

/-- Claim C3 as amended: a single `advance` or `retreat` on an empty list
with no selection does not panic, but it sets the selection to index 0
rather than leaving it none; once that out-of-range selection exists, a
further `advance` (or a `retreat` from the selected index 0) on the
still-empty list panics in the `items.len() - 1` index arithmetic. -/
theorem empty_list_amended :
    StatefulList.next ({ state := { selected := none }, items := [] } : StatefulList String) =
      some { state := { selected := some 0 }, items := [] } ∧
    StatefulList.previous ({ state := { selected := none }, items := [] } : StatefulList String) =
      some { state := { selected := some 0 }, items := [] } ∧
    nextN 2 ({ state := { selected := none }, items := [] } : StatefulList String) = none ∧
    StatefulList.previous ({ state := { selected := some 0 }, items := [] } : StatefulList String) =
      none := by
  decide

/-- Claim C4, counterexample to the claim as stated: from the neutral
chord state, `d` alone indeed changes nothing, but `d` followed by `x` —
a key other than `d`/`w` — deletes the character under the cursor, so
"pressing d followed by any key other than d or w performs no deletion of
buffer content" is false. -/
theorem chord_d_counterexample :
    edAB.last_char ≠ 'd' ∧
    edAB.lines = [['a', 'b']] ∧
    (normalStep 1024 edAB NKey.d).lines = [['a', 'b']] ∧
    (normalStep 1024 (normalStep 1024 edAB NKey.d) NKey.x).lines = [['b']] := by
  decide

/-- Claim C4 as amended: from a neutral chord state, `d` once leaves the
buffer unchanged and records the pending chord; `d` then `d` clears
exactly the current line's text and resets the chord state to neutral;
and for any key other than `d`/`w` the pending `d` chord itself causes no
deletion — the buffer after that key equals the buffer the same key
produces without a pending `d` (keys with their own mutating semantics,
such as `x`, still apply their usual effect). -/
theorem chord_d_amended (c : Nat) (ed : AcpiEditor) (k : NKey)
    (h : ed.last_char ≠ 'd') (hk1 : k ≠ NKey.d) (hk2 : k ≠ NKey.w) :
    (normalStep c ed NKey.d).lines = ed.lines ∧
    (normalStep c ed NKey.d).last_char = 'd' ∧
    (normalStep c (normalStep c ed NKey.d) NKey.d).lines = ed.lines.set ed.row [] ∧
    (normalStep c (normalStep c ed NKey.d) NKey.d).last_char = ' ' ∧
    (normalStep c { ed with last_char := 'd' } k).lines =
      (normalStep c { ed with last_char := ' ' } k).lines := by
  have h1 : normalStep c ed NKey.d = { ed with last_char := 'd' } := by
    simp [normalStep, AcpiEditor.try_delete_line, h]
  refine ⟨by rw [h1], by rw [h1], ?_, ?_, ?_⟩
  · rw [h1]
    simp only [normalStep, AcpiEditor.try_delete_line, if_pos rfl]
    rw [AcpiEditor.write_lines]
    exact ddLines { ed with last_char := 'd' }
  · rw [h1]
    simp [normalStep, AcpiEditor.try_delete_line]
  · cases k with
    | j => simp [normalStep, AcpiEditor.next_line]
    | g => simp [normalStep, AcpiEditor.try_to_start]
    | d => exact absurd rfl hk1
    | w => exact absurd rfl hk2
    | x =>
      simp only [normalStep, AcpiEditor.delete_char, AcpiEditor.write_lines,
        AcpiEditor.delete_next_char, AcpiEditor.currentLine]
      split_ifs <;> rfl
    | other => rfl

/-- Claim C4, witness of the amended statement on `edAB` with the key
`x`. -/
theorem chord_d_amended_witness :
    edAB.last_char ≠ 'd' ∧ NKey.x ≠ NKey.d ∧ NKey.x ≠ NKey.w ∧
    ((normalStep 1024 edAB NKey.d).lines = edAB.lines ∧
     (normalStep 1024 edAB NKey.d).last_char = 'd' ∧
     (normalStep 1024 (normalStep 1024 edAB NKey.d) NKey.d).lines =
       edAB.lines.set edAB.row [] ∧
     (normalStep 1024 (normalStep 1024 edAB NKey.d) NKey.d).last_char = ' ' ∧
     (normalStep 1024 { edAB with last_char := 'd' } NKey.x).lines =
       (normalStep 1024 { edAB with last_char := ' ' } NKey.x).lines) :=
  ⟨by decide, by decide, by decide,
    chord_d_amended 1024 edAB NKey.x (by decide) (by decide) (by decide)⟩

/-- Claim C5, counterexample to the claim as stated: after `g`, `g` the
chord memory still holds `g` — it is not cleared — so after moving down
with `j`, a further single `g` press jumps to the top again instead of
merely recording the chord. -/
theorem chord_g_counterexample :
    (normalStep 1024 (normalStep 1024 edTwoLines NKey.g) NKey.g).last_char = 'g' ∧
    (normalStep 1024 (normalStep 1024 edTwoLines NKey.g) NKey.g).last_char ≠ ' ' ∧
    (normalStep 1024 (normalStep 1024 (normalStep 1024 edTwoLines NKey.g) NKey.g) NKey.j).row
      = 1 ∧
    (normalStep 1024 (normalStep 1024 (normalStep 1024 (normalStep 1024 edTwoLines NKey.g)
      NKey.g) NKey.j) NKey.g).row = 0 := by
  decide

/-- Claim C5 as amended: with chord memory not `g`, the first `g` press
only records chord memory `g` and moves nothing; a second consecutive `g`
moves the cursor to the buffer start but leaves the chord memory as `g`
(it is not cleared), so any further `g` press while the memory holds `g`
moves again rather than merely recording. -/
theorem chord_g_amended (c : Nat) (ed : AcpiEditor) (h : ed.last_char ≠ 'g') :
    (normalStep c ed NKey.g).lines = ed.lines ∧
    (normalStep c ed NKey.g).row = ed.row ∧
    (normalStep c ed NKey.g).col = ed.col ∧
    (normalStep c ed NKey.g).last_char = 'g' ∧
    (normalStep c (normalStep c ed NKey.g) NKey.g).row = 0 ∧
    (normalStep c (normalStep c ed NKey.g) NKey.g).col = 0 ∧
    (normalStep c (normalStep c ed NKey.g) NKey.g).last_char = 'g' := by
  simp [normalStep, AcpiEditor.try_to_start, h]

/-- Claim C5, witness of the amended statement on `edTwoLines`. -/
theorem chord_g_amended_witness :
    edTwoLines.last_char ≠ 'g' ∧
    ((normalStep 1024 edTwoLines NKey.g).lines = edTwoLines.lines ∧
     (normalStep 1024 edTwoLines NKey.g).row = edTwoLines.row ∧
     (normalStep 1024 edTwoLines NKey.g).col = edTwoLines.col ∧
     (normalStep 1024 edTwoLines NKey.g).last_char = 'g' ∧
     (normalStep 1024 (normalStep 1024 edTwoLines NKey.g) NKey.g).row = 0 ∧
     (normalStep 1024 (normalStep 1024 edTwoLines NKey.g) NKey.g).col = 0 ∧
     (normalStep 1024 (normalStep 1024 edTwoLines NKey.g) NKey.g).last_char = 'g') :=
  ⟨by decide, chord_g_amended 1024 edTwoLines (by decide)⟩

/-- Claim C6, counterexample to the claim as stated: after appending 150
entries the in-memory log text area holds all 150 of them (151 lines with
the initial empty line), not just the most recent 100 — the
`set_max_histories(100)` call bounds the widget's undo history, not its
line count. -/
theorem log_bound_counterexample :
    (runLog dt0 ((List.range 150).map toString)).memLines.length = 151 ∧
    (151 : Nat) ≠ 101 := by
  rw [runLog, foldl_update_log]
  simp [logInit]

/-- Claim C6 as amended: every append formats its entry as
`|YYYY-MM-DD HH:MM:SS| message` and writes it both into the in-memory
text area and to the durable sink, in chronological order; the in-memory
log is unbounded, so after appending 150 entries it holds all 150 (after
its initial empty line), as does the durable sink. -/
theorem log_append_amended (t : DateTime) (msgs : List String) :
    (runLog t msgs).memLines = "" :: msgs.map (fmtEntry t) ∧
    (runLog t msgs).sink = msgs.map (fmtEntry t) := by
  rw [runLog, foldl_update_log]
  simp [logInit]

/-- Claim C7. Committing a search pattern that fails to compile crashes
the session: `AcpiEditor::search` calls
`set_search_pattern(..).unwrap()`, and for every pattern whose stripped
text the regex engine rejects, the `unwrap` panics (modelled as `none`),
aborting the program — contrary to the claim that the commit never
aborts. -/
theorem search_commit_panics (compileOk : String → Bool) (patternLines : List String)
    (h : compileOk (trimStartSlashes (String.join patternLines)) = false) :
    search compileOk patternLines = none := by
  simp [search, h]

/-- Claim C7, witness: the pattern buffer `/(` with a regex engine that
rejects `(` (an unclosed group) makes the commit panic. -/
theorem search_commit_panics_witness :
    (fun _ : String => false) (trimStartSlashes (String.join ["/("])) = false ∧
    search (fun _ : String => false) ["/("] = none :=
  ⟨rfl, search_commit_panics (fun _ : String => false) ["/("] rfl⟩

/-- Claim C8. With a non-empty modified set, `apply` logs, in output
order: on success every non-empty line of the captured stdout (empty
lines skipped), and on failure every line of the captured stderr, empty
lines included. -/
theorem apply_logging (t : DateTime) (ok : Bool) (st : ApplyState) (so se : String)
    (h : st.modifiedItems ≠ []) :
    (apply t ok (ApplyOutcome.success so) st).1.log.memLines =
      st.log.memLines ++
        ((so.splitOn "\n").filter (fun l : String => l.length != 0)).map (fmtEntry t) ∧
    (apply t ok (ApplyOutcome.failure se) st).1.log.memLines =
      st.log.memLines ++ (se.splitOn "\n").map (fmtEntry t) := by
  have hne : ¬(st.modifiedItems.length = 0) := by
    simpa using h
  constructor <;> simp [apply, hne, foldl_update_log]

/-- Claim C8, witness on ModifiedSet `{A, C}` with stdout
`"ok A\nok C\n"` and stderr `"err\n\n"`. -/
theorem apply_logging_witness :
    stAC.modifiedItems ≠ [] ∧
    ((apply dt0 true (ApplyOutcome.success "ok A\nok C\n") stAC).1.log.memLines =
      stAC.log.memLines ++
        ((("ok A\nok C\n").splitOn "\n").filter (fun l : String => l.length != 0)).map
          (fmtEntry dt0) ∧
    (apply dt0 true (ApplyOutcome.failure "err\n\n") stAC).1.log.memLines =
      stAC.log.memLines ++ (("err\n\n").splitOn "\n").map (fmtEntry dt0)) :=
  ⟨by decide, apply_logging dt0 true stAC "ok A\nok C\n" "err\n\n" (by decide)⟩

/-- Claim C9. `apply` never writes the modified set: for every starting
modified set and every tool outcome (success, failure, invocation error)
the set after the call equals the set before, and the external tool is
invoked exactly when the set is non-empty, with the single argument
obtained by joining the names with commas. -/
theorem apply_frame (t : DateTime) (ok : Bool) (outcome : ApplyOutcome) (st : ApplyState) :
    (apply t ok outcome st).1.modifiedItems = st.modifiedItems ∧
    (apply t ok outcome st).2 =
      (if st.modifiedItems.length = 0 then none
       else some (String.intercalate "," st.modifiedItems)) := by
  by_cases hne : st.modifiedItems.length = 0
  · simp [apply, hne]
  · cases outcome <;> simp [apply, hne]

/-- Claim C10. With no document selected, every Insert-mode key event
leaves the whole editor state unchanged — buffer, working directory and
modified set included — except for the mode switch to Normal on the
escape key. -/
theorem insert_mode_unselected (c : Nat) (ed : AcpiEditor) (k : IKey)
    (h : ed.files.state.selected = none) :
    insertModeStep c ed k = if k = IKey.esc then ed.switch_to_normal else ed := by
  by_cases hk : k = IKey.esc
  · simp [insertModeStep, AcpiEditor.insert, AcpiEditor.switch_to_normal, hk, h]
  · simp [insertModeStep, AcpiEditor.insert, hk, h]

/-- Claim C10, witness on the unselected workspace with an ordinary
character key. -/
theorem insert_mode_unselected_witness :
    edUnselected.files.state.selected = none ∧
    insertModeStep 1024 edUnselected (IKey.char 'q') =
      (if IKey.char 'q' = IKey.esc then edUnselected.switch_to_normal else edUnselected) :=
  ⟨rfl, insert_mode_unselected 1024 edUnselected (IKey.char 'q') rfl⟩

end Acpied
